import Mathlib

/-!
Verification of the HealthFlow-MS pipeline core against its specification.

The development shallowly embeds the Python sources:
* src/deid/app/main.py          (DeIdentificationService)      → namespace Deid
* src/featurizer/app/main.py    (FeatureExtractor)             → namespace Featurizer
* src/modelrisque/app/main.py   (ModelRiskService)             → namespace ModelRisk
* src/scoreapi/app/main.py      (categorize_risk_level)        → namespace ScoreApi

Python dicts are embedded as insertion-ordered association lists with
replace-on-assignment semantics (dinsert / alookup), mirroring dict key
ordering and overwriting.  Python floats are embedded as rationals.
External effectful collaborators (SHA-256, Faker, the SQL store, Kafka,
pickled model artifacts) are abstracted as explicit function parameters or
explicit state, so that every definition stays executable.

Layout: all definitions first, then all theorems (store lemmas,
anonymizer characterizations, and finally one theorem per claim C1-C10
with its witness or counterexample).
-/

/-!
Verification of the HealthFlow-MS pipeline core against its specification.

The development shallowly embeds the Python sources:
* src/deid/app/main.py          (DeIdentificationService)      → namespace Deid
* src/featurizer/app/main.py    (FeatureExtractor)             → namespace Featurizer
* src/modelrisque/app/main.py   (ModelRiskService)             → namespace ModelRisk
* src/scoreapi/app/main.py      (categorize_risk_level)        → namespace ScoreApi

Python dicts are embedded as insertion-ordered association lists with
replace-on-assignment semantics (dinsert / alookup), mirroring dict key
ordering and overwriting.  Python floats are embedded as rationals.
External effectful collaborators (SHA-256, Faker, the SQL store, Kafka,
pickled model artifacts) are abstracted as explicit function parameters or
explicit state, so that every definition stays executable.
-/

/-- Python dict lookup: first binding of the key, if any. -/
def alookup {α β : Type} [DecidableEq α] : List (α × β) → α → Option β
  | [], _ => none
  | (a, b) :: t, k => if a = k then some b else alookup t k

/-- Python dict assignment: overwrite the existing binding in place
(keeping its position, as CPython dicts do), else append. -/
def dinsert {α β : Type} [DecidableEq α] : List (α × β) → α → β → List (α × β)
  | [], k, v => [(k, v)]
  | (a, b) :: t, k, v => if a = k then (a, v) :: t else (a, b) :: dinsert t k v

namespace Deid

/-- External collaborators of DeIdentificationService.generate_pseudonym:
the SHA-256 hex digest and the seeded Faker generators, plus the configured
salt (DEID_SALT).  Abstracting them keeps generate_pseudonym an executable
pure function of (original_id, identifier_type, salt), exactly as in the
source. -/
structure Env where
  sha256hex : String → String
  fakerRandomNumber : Nat → Nat → Nat
  fakerName : Nat → String
  fakerPhone : Nat → String
  fakerEmail : Nat → String
  salt : String

/-- Value of a hex digit character, as used by Python int(s, 16). -/
def hexVal (c : Char) : Nat :=
  if '0' ≤ c ∧ c ≤ '9' then c.toNat - 48
  else if 'a' ≤ c ∧ c ≤ 'f' then c.toNat - 87
  else if 'A' ≤ c ∧ c ≤ 'F' then c.toNat - 55
  else 0

/-- Python int(s, 16) on a hex string. -/
def hexToNat (s : String) : Nat :=
  s.data.foldl (fun a c => a * 16 + hexVal c) 0

/-- Python str.upper (on the ASCII hex digests it is applied to). -/
def pyUpper (s : String) : String :=
  ⟨s.data.map Char.toUpper⟩

/-- DeIdentificationService.generate_pseudonym (src/deid/app/main.py:143-185):
hash original_id, type and salt, then dispatch on the identifier type to a
seeded generator. -/
def generate_pseudonym (env : Env) (original_id identifier_type : String) : String :=
  let digest := env.sha256hex (original_id ++ ":" ++ identifier_type ++ ":" ++ env.salt)
  let seed := hexToNat (digest.take 8)
  if identifier_type = "patient_id" then
    "PATIENT_" ++ toString (env.fakerRandomNumber seed 6)
  else if identifier_type = "practitioner_id" then
    "PRACT_" ++ toString (env.fakerRandomNumber seed 5)
  else if identifier_type = "organization_id" then
    "ORG_" ++ toString (env.fakerRandomNumber seed 4)
  else if identifier_type = "name" then
    env.fakerName seed
  else if identifier_type = "phone" then
    env.fakerPhone seed
  else if identifier_type = "email" then
    env.fakerEmail seed
  else
    "PSEUDO_" ++ pyUpper (digest.take 12)

/-- The in-process pseudonym cache (self.pseudonym_cache, keyed by the
string f"{identifier_type}:{original_id}") and the pseudonym_mapping table
(keyed by the column pair (original_identifier, identifier_type)). -/
structure St where
  cache : List (String × String)
  db : List ((String × String) × String)
deriving DecidableEq

/-- The empty initial state: fresh cache, empty mapping table. -/
def St.empty : St := ⟨[], []⟩

/-- Cache key f"{identifier_type}:{original_id}". -/
def cacheKey (identifier_type original_id : String) : String :=
  identifier_type ++ ":" ++ original_id

/-- Cache eviction / process restart: the in-process dict is dropped, the
durable table survives. -/
def clearCache (st : St) : St := { st with cache := [] }

/-- DeIdentificationService.get_or_create_pseudonym
(src/deid/app/main.py:98-141).  dbOk models whether the database try-block
succeeds; on failure the source falls back to generate_pseudonym without
touching cache or store. -/
def get_or_create_pseudonym (env : Env) (dbOk : Bool) (st : St)
    (original_id identifier_type : String) : String × St :=
  match alookup st.cache (cacheKey identifier_type original_id) with
  | some p => (p, st)
  | none =>
    if dbOk then
      match alookup st.db (original_id, identifier_type) with
      | some p =>
        (p, { st with cache := dinsert st.cache (cacheKey identifier_type original_id) p })
      | none =>
        let p := generate_pseudonym env original_id identifier_type
        (p, ⟨dinsert st.cache (cacheKey identifier_type original_id) p,
             dinsert st.db (original_id, identifier_type) p⟩)
    else
      (generate_pseudonym env original_id identifier_type, st)

/-- An identifier type with no colon, as every identifier_type literal in
the source ("patient_id", "patient_identifier", "name", "phone", "email",
"practitioner_id") is.  The string cache key cannot be decomposed
unambiguously otherwise. -/
def ColonFree (t : String) : Prop := ∀ c ∈ t.data, c ≠ ':'

instance (t : String) : Decidable (ColonFree t) := by
  unfold ColonFree; infer_instance

/-- The pseudonym-store consistency invariant: every cache entry readable at
a colon-free (type, id) key, and every table row, holds exactly the
deterministic generate_pseudonym value for that identity. -/
def WellFormed (env : Env) (st : St) : Prop :=
  (∀ x t p, ColonFree t → alookup st.cache (cacheKey t x) = some p →
      p = generate_pseudonym env x t) ∧
  (∀ x t p, alookup st.db (x, t) = some p → p = generate_pseudonym env x t)

/-- Python str truthiness, as used by the guards `if patient.id:` etc. -/
def pyTruthy (s : String) : Bool := !s.data.isEmpty

/-- Python str.startswith on character lists. -/
def listStartsWith {α : Type} [DecidableEq α] : List α → List α → Bool
  | _, [] => true
  | [], _ :: _ => false
  | a :: s, b :: p => decide (a = b) && listStartsWith s p

/-- Python str.startswith. -/
def pyStartsWith (s pre : String) : Bool := listStartsWith s.data pre.data

/-- Python str.replace: replace every non-overlapping occurrence of pat,
scanning left to right.  Structural recursion on a fuel bounded by the
string length (each step consumes at least one character when pat is
nonempty; the service only ever passes the nonempty literals "Patient/"
and "Practitioner/"). -/
def replaceFuel {α : Type} [DecidableEq α] (pat rep : List α) : Nat → List α → List α
  | _, [] => []
  | 0, s => s
  | fuel + 1, c :: rest =>
    if pat ≠ [] ∧ listStartsWith (c :: rest) pat = true then
      rep ++ replaceFuel pat rep fuel ((c :: rest).drop pat.length)
    else
      c :: replaceFuel pat rep fuel rest

/-- Python s.replace(pat, rep). -/
def pyReplace (s pat rep : String) : String :=
  ⟨replaceFuel pat.data rep.data s.data.length s.data⟩

/-- FHIR Identifier (the fields the service touches). -/
structure Identifier where
  value : Option String
deriving DecidableEq

/-- FHIR HumanName (the fields the service touches). -/
structure HumanName where
  family : Option String
  given : Option (List String)
deriving DecidableEq

/-- FHIR ContactPoint (the fields the service touches). -/
structure ContactPoint where
  system : Option String
  value : Option String
deriving DecidableEq

/-- FHIR Address; its content is dropped wholesale by the service, so the
payload is kept opaque as its serialized text. -/
structure Address where
  text : String
deriving DecidableEq

/-- FHIR Patient (the fields the service touches). -/
structure PatientR where
  id : Option String
  identifier : Option (List Identifier)
  name : Option (List HumanName)
  telecom : Option (List ContactPoint)
  address : Option (List Address)
deriving DecidableEq

/-- FHIR Reference (the field the service touches). -/
structure Reference where
  reference : Option String
deriving DecidableEq

/-- FHIR Observation (the fields the service touches). -/
structure ObservationR where
  subject : Option Reference
  performer : Option (List Reference)
deriving DecidableEq

/-- FHIR Condition (the fields the service touches). -/
structure ConditionR where
  subject : Option Reference
deriving DecidableEq

/-- FHIR MedicationRequest (the fields the service touches). -/
structure MedicationRequestR where
  subject : Option Reference
  requester : Option Reference
deriving DecidableEq

/-- A bundle entry's resource, discriminated by resourceType exactly as the
dispatch in anonymize_bundle is.  parseOk records whether the pydantic
validation (Patient(**data) etc.) inside the type-specific anonymizer
succeeds; on failure the anonymizer returns the original content.  Types
outside the four handled ones are carried with their raw payload. -/
inductive Resource where
  | patient (parseOk : Bool) (p : PatientR)
  | observation (parseOk : Bool) (o : ObservationR)
  | condition (parseOk : Bool) (c : ConditionR)
  | medicationRequest (parseOk : Bool) (m : MedicationRequestR)
  | other (resourceType : String) (payload : String)
deriving DecidableEq

/-- A Bundle entry. -/
structure Entry where
  resource : Option Resource
deriving DecidableEq

/-- A FHIR Bundle. -/
structure BundleR where
  entry : Option (List Entry)
deriving DecidableEq

/-- State-threading map, the shape of the anonymization loops (each
iteration may consult and update the pseudonym store). -/
def mapSt {σ α β : Type} (f : σ → α → β × σ) : σ → List α → List β × σ
  | st, [] => ([], st)
  | st, a :: rest =>
    let r := f st a
    let rs := mapSt f r.2 rest
    (r.1 :: rs.1, rs.2)

section Anonymizers

variable (env : Env) (dbOk : Bool)

/-- One identifier of the loop in anonymize_patient_resource: replace the
value (when truthy) with the "patient_identifier" pseudonym. -/
def anonIdentifier (st : St) (idr : Identifier) : Identifier × St :=
  match idr.value with
  | some v =>
    if pyTruthy v then
      let r := get_or_create_pseudonym env dbOk st v "patient_identifier"
      (⟨some r.1⟩, r.2)
    else (idr, st)
  | none => (idr, st)

/-- One given name of the comprehension in anonymize_patient_resource. -/
def anonGiven (st : St) (g : String) : String × St :=
  get_or_create_pseudonym env dbOk st g "name"

/-- One name of the loop in anonymize_patient_resource: family (when
truthy) then every given name through the "name" pseudonym. -/
def anonHumanName (st : St) (n : HumanName) : HumanName × St :=
  let fam :=
    match n.family with
    | some f =>
      if pyTruthy f then
        let r := get_or_create_pseudonym env dbOk st f "name"
        (some r.1, r.2)
      else (some f, st)
    | none => (none, st)
  let giv :=
    match n.given with
    | some gs =>
      let r := mapSt (anonGiven env dbOk) fam.2 gs
      (some r.1, r.2)
    | none => (none, fam.2)
  (⟨fam.1, giv.1⟩, giv.2)

/-- One contact point of the loop in anonymize_patient_resource: a truthy
value is pseudonymized when system is phone or email, else untouched. -/
def anonContactPoint (st : St) (c : ContactPoint) : ContactPoint × St :=
  match c.value with
  | some v =>
    if pyTruthy v then
      match c.system with
      | some "phone" =>
        let r := get_or_create_pseudonym env dbOk st v "phone"
        (⟨c.system, some r.1⟩, r.2)
      | some "email" =>
        let r := get_or_create_pseudonym env dbOk st v "email"
        (⟨c.system, some r.1⟩, r.2)
      | _ => (c, st)
    else (c, st)
  | none => (c, st)

/-- An optional string field whose truthy value is replaced by its ty
pseudonym (the `if patient.id:` pattern). -/
def anonOptTruthyStr (ty : String) (st : St) (v : Option String) : Option String × St :=
  match v with
  | some s =>
    if pyTruthy s then
      let r := get_or_create_pseudonym env dbOk st s ty
      (some r.1, r.2)
    else (some s, st)
  | none => (none, st)

/-- An optional list field each of whose elements is rewritten in order by
f (the `if patient.x: for e in patient.x:` pattern). -/
def anonOptList {α β : Type} (f : St → α → β × St) (st : St) :
    Option (List α) → Option (List β) × St
  | some l =>
    let r := mapSt f st l
    (some r.1, r.2)
  | none => (none, st)

/-- Body of DeIdentificationService.anonymize_patient_resource
(src/deid/app/main.py:187-225): id, identifiers, names, telecom in source
order; addresses are removed completely. -/
def anonPatient (st : St) (p : PatientR) : PatientR × St :=
  let i := anonOptTruthyStr env dbOk "patient_id" st p.id
  let ids := anonOptList (anonIdentifier env dbOk) i.2 p.identifier
  let nms := anonOptList (anonHumanName env dbOk) ids.2 p.name
  let tel := anonOptList (anonContactPoint env dbOk) nms.2 p.telecom
  (⟨i.1, ids.1, nms.1, tel.1, none⟩, tel.2)

/-- DeIdentificationService.anonymize_patient_resource with its try/except:
on validation failure the original content is returned. -/
def anonymize_patient_resource (st : St) (parseOk : Bool) (p : PatientR) : PatientR × St :=
  if parseOk then anonPatient env dbOk st p else (p, st)

/-- The shared reference-rewriting step: a truthy reference starting with
pfx has every pfx occurrence stripped (Python str.replace), the remainder
resolved as identifier type ty, and is rewritten to pfx + pseudonym. -/
def anonRef (pfx ty : String) (st : St) (r : Reference) : Reference × St :=
  match r.reference with
  | some ref =>
    if pyTruthy ref then
      if pyStartsWith ref pfx then
        let pid := pyReplace ref pfx ""
        let q := get_or_create_pseudonym env dbOk st pid ty
        (⟨some (pfx ++ q.1)⟩, q.2)
      else (r, st)
    else (r, st)
  | none => (r, st)

/-- An optional reference field rewritten by anonRef (the
`if x.subject and x.subject.reference:` pattern). -/
def anonOptRef (pfx ty : String) (st : St) : Option Reference → Option Reference × St
  | some r =>
    let x := anonRef env dbOk pfx ty st r
    (some x.1, x.2)
  | none => (none, st)

/-- Body of DeIdentificationService.anonymize_observation_resource
(src/deid/app/main.py:231-259): subject then performers. -/
def anonObservation (st : St) (o : ObservationR) : ObservationR × St :=
  let sub := anonOptRef env dbOk "Patient/" "patient_id" st o.subject
  let perf := anonOptList (anonRef env dbOk "Practitioner/" "practitioner_id") sub.2 o.performer
  (⟨sub.1, perf.1⟩, perf.2)

/-- anonymize_observation_resource with its try/except. -/
def anonymize_observation_resource (st : St) (parseOk : Bool) (o : ObservationR) :
    ObservationR × St :=
  if parseOk then anonObservation env dbOk st o else (o, st)

/-- Body of DeIdentificationService.anonymize_condition_resource
(src/deid/app/main.py:261-280): subject only. -/
def anonCondition (st : St) (c : ConditionR) : ConditionR × St :=
  let sub := anonOptRef env dbOk "Patient/" "patient_id" st c.subject
  (⟨sub.1⟩, sub.2)

/-- anonymize_condition_resource with its try/except. -/
def anonymize_condition_resource (st : St) (parseOk : Bool) (c : ConditionR) :
    ConditionR × St :=
  if parseOk then anonCondition env dbOk st c else (c, st)

/-- Body of DeIdentificationService.anonymize_medication_request_resource
(src/deid/app/main.py:282-308): subject then requester. -/
def anonMedicationRequest (st : St) (m : MedicationRequestR) : MedicationRequestR × St :=
  let sub := anonOptRef env dbOk "Patient/" "patient_id" st m.subject
  let req := anonOptRef env dbOk "Practitioner/" "practitioner_id" sub.2 m.requester
  (⟨sub.1, req.1⟩, req.2)

/-- anonymize_medication_request_resource with its try/except. -/
def anonymize_medication_request_resource (st : St) (parseOk : Bool)
    (m : MedicationRequestR) : MedicationRequestR × St :=
  if parseOk then anonMedicationRequest env dbOk st m else (m, st)

/-- One entry of the dispatch loop in anonymize_bundle
(src/deid/app/main.py:318-331): dispatch on resourceType; anything else
(including an absent resource) passes through. -/
def anonEntry (st : St) (e : Entry) : Entry × St :=
  match e.resource with
  | some (.patient ok p) =>
    let r := anonymize_patient_resource env dbOk st ok p
    (⟨some (.patient ok r.1)⟩, r.2)
  | some (.observation ok o) =>
    let r := anonymize_observation_resource env dbOk st ok o
    (⟨some (.observation ok r.1)⟩, r.2)
  | some (.condition ok c) =>
    let r := anonymize_condition_resource env dbOk st ok c
    (⟨some (.condition ok r.1)⟩, r.2)
  | some (.medicationRequest ok m) =>
    let r := anonymize_medication_request_resource env dbOk st ok m
    (⟨some (.medicationRequest ok r.1)⟩, r.2)
  | some (.other ty payload) => (⟨some (.other ty payload)⟩, st)
  | none => (e, st)

/-- DeIdentificationService.anonymize_bundle (src/deid/app/main.py:310-337)
on a successfully parsed Bundle value. -/
def anonymize_bundle (st : St) (b : BundleR) : BundleR × St :=
  match b.entry with
  | some es =>
    let r := mapSt (anonEntry env dbOk) st es
    (⟨some r.1⟩, r.2)
  | none => (b, st)

end Anonymizers

section PureForms

variable (env : Env)

/-- Pure form of the reference rewrite: under a consistent store every
resolution returns generate_pseudonym, so the stateful anonymizers act like
these store-free functions (proved below). -/
def anonRefPure (pfx ty : String) (r : Reference) : Reference :=
  match r.reference with
  | some ref =>
    if pyTruthy ref then
      if pyStartsWith ref pfx then
        ⟨some (pfx ++ generate_pseudonym env (pyReplace ref pfx "") ty)⟩
      else r
    else r
  | none => r

/-- Pure form of the identifier rewrite. -/
def anonIdentifierPure (idr : Identifier) : Identifier :=
  match idr.value with
  | some v =>
    if pyTruthy v then ⟨some (generate_pseudonym env v "patient_identifier")⟩ else idr
  | none => idr

/-- Pure form of the human-name rewrite. -/
def anonHumanNamePure (n : HumanName) : HumanName :=
  ⟨(match n.family with
    | some f => if pyTruthy f then some (generate_pseudonym env f "name") else some f
    | none => none),
   (match n.given with
    | some gs => some (gs.map (fun g => generate_pseudonym env g "name"))
    | none => none)⟩

/-- Pure form of the contact-point rewrite. -/
def anonContactPointPure (c : ContactPoint) : ContactPoint :=
  match c.value with
  | some v =>
    if pyTruthy v then
      match c.system with
      | some "phone" => ⟨c.system, some (generate_pseudonym env v "phone")⟩
      | some "email" => ⟨c.system, some (generate_pseudonym env v "email")⟩
      | _ => c
    else c
  | none => c

/-- Pure form of the truthy-string rewrite. -/
def anonOptTruthyStrPure (ty : String) : Option String → Option String
  | some s => if pyTruthy s then some (generate_pseudonym env s ty) else some s
  | none => none

/-- Pure form of the patient rewrite. -/
def anonPatientPure (p : PatientR) : PatientR :=
  ⟨anonOptTruthyStrPure env "patient_id" p.id,
   p.identifier.map (List.map (anonIdentifierPure env)),
   p.name.map (List.map (anonHumanNamePure env)),
   p.telecom.map (List.map (anonContactPointPure env)),
   none⟩

/-- Pure form of the observation rewrite. -/
def anonObservationPure (o : ObservationR) : ObservationR :=
  ⟨o.subject.map (anonRefPure env "Patient/" "patient_id"),
   o.performer.map (List.map (anonRefPure env "Practitioner/" "practitioner_id"))⟩

/-- Pure form of the condition rewrite. -/
def anonConditionPure (c : ConditionR) : ConditionR :=
  ⟨c.subject.map (anonRefPure env "Patient/" "patient_id")⟩

/-- Pure form of the medication-request rewrite. -/
def anonMedicationRequestPure (m : MedicationRequestR) : MedicationRequestR :=
  ⟨m.subject.map (anonRefPure env "Patient/" "patient_id"),
   m.requester.map (anonRefPure env "Practitioner/" "practitioner_id")⟩

/-- Pure form of one bundle-entry dispatch step. -/
def anonEntryPure (e : Entry) : Entry :=
  match e.resource with
  | some (.patient ok p) =>
    ⟨some (.patient ok (if ok then anonPatientPure env p else p))⟩
  | some (.observation ok o) =>
    ⟨some (.observation ok (if ok then anonObservationPure env o else o))⟩
  | some (.condition ok c) =>
    ⟨some (.condition ok (if ok then anonConditionPure env c else c))⟩
  | some (.medicationRequest ok m) =>
    ⟨some (.medicationRequest ok (if ok then anonMedicationRequestPure env m else m))⟩
  | some (.other ty payload) => ⟨some (.other ty payload)⟩
  | none => e

end PureForms

/-- The patient id carried by an entry, when its resource is a Patient. -/
def entryPatientId (e : Entry) : Option String :=
  match e.resource with
  | some (.patient _ p) => p.id
  | _ => none

/-- The subject reference carried by an entry, when its resource is an
Observation, Condition or MedicationRequest. -/
def entrySubjectRef (e : Entry) : Option String :=
  match e.resource with
  | some (.observation _ o) =>
    match o.subject with
    | some r => r.reference
    | none => none
  | some (.condition _ c) =>
    match c.subject with
    | some r => r.reference
    | none => none
  | some (.medicationRequest _ m) =>
    match m.subject with
    | some r => r.reference
    | none => none
  | _ => none

/-- An entry whose resource is an Observation, Condition or
MedicationRequest whose per-resource validation succeeds. -/
def entryIsParsedReferrer (e : Entry) : Bool :=
  match e.resource with
  | some (.observation ok _) => ok
  | some (.condition ok _) => ok
  | some (.medicationRequest ok _) => ok
  | _ => false

/-- An entry whose per-resource anonymizer raises (validation fails) for
one of the four handled resource types. -/
def entryFails (e : Entry) : Bool :=
  match e.resource with
  | some (.patient ok _) => !ok
  | some (.observation ok _) => !ok
  | some (.condition ok _) => !ok
  | some (.medicationRequest ok _) => !ok
  | _ => false

/-- An entry outside the four handled resource types (or with no resource
at all): the dispatch has no branch for it. -/
def entryIsUnhandled (e : Entry) : Bool :=
  match e.resource with
  | some (.patient _ _) => false
  | some (.observation _ _) => false
  | some (.condition _ _) => false
  | some (.medicationRequest _ _) => false
  | _ => true

/-- The serialized input of anonymize_bundle: either a string that parses
and validates as a Bundle, or one that does not (in which case only the raw
text matters, since it is returned unchanged). -/
inductive BundleJson where
  | valid (b : BundleR)
  | invalid (raw : String)
deriving DecidableEq

/-- DeIdentificationService.anonymize_bundle (src/deid/app/main.py:310-337)
at the JSON-string boundary: parse, anonymize, re-serialize; any exception
returns the input string unchanged.  serialize stands for
json.dumps(bundle.dict()). -/
def anonymize_bundle_str (env : Env) (dbOk : Bool) (serialize : BundleR → String)
    (st : St) (bj : BundleJson) : String × St :=
  match bj with
  | .valid b =>
    let r := anonymize_bundle env dbOk st b
    (serialize r.1, r.2)
  | .invalid raw => (raw, st)

/-- The message published to fhir.data.anonymized
(src/deid/app/main.py:388-395; timestamp omitted as wall-clock). -/
structure OutMessage where
  originalBundleId : String
  patientPseudoId : String
  anonymizedBundle : String
  source : String
  eventType : String
deriving DecidableEq

/-- Truthiness of the bundle text fetched from the store (the
`if not bundle_json:` guard): a string serialized from a parsed Bundle
dict is never empty; an unparseable raw text is truthy when nonempty. -/
def bundleJsonTruthy : BundleJson → Bool
  | .valid _ => true
  | .invalid raw => pyTruthy raw

/-- DeIdentificationService.process_message (src/deid/app/main.py:361-407):
drop the message when bundleId is missing/empty or the bundle cannot be
fetched (or its stored text is empty); otherwise anonymize whatever the
store returned and publish it.  getBundle stands for
get_bundle_from_database. -/
def process_message (env : Env) (dbOk : Bool) (serialize : BundleR → String)
    (getBundle : String → Option BundleJson) (st : St)
    (bundleId : Option String) (patientId : String) : Option OutMessage × St :=
  match bundleId with
  | none => (none, st)
  | some bid =>
    if pyTruthy bid then
      match getBundle bid with
      | none => (none, st)
      | some bj =>
        if bundleJsonTruthy bj then
          let a := anonymize_bundle_str env dbOk serialize st bj
          let q := get_or_create_pseudonym env dbOk a.2 patientId "patient_id"
          (some ⟨bid, q.1, a.1, "deid-service", "fhir_data_anonymized"⟩, q.2)
        else (none, st)
    else (none, st)

/-- A concrete environment used by the witnesses below: the digest function
is the identity, Faker's seeded random_number returns its seed. -/
def env0 : Env := ⟨fun s => s, fun n _ => n, fun _ => "N", fun _ => "P", fun _ => "E", "s"⟩

/-- Witness bundle for C2: Patient "123" plus an Observation referencing
Patient/123. -/
def bundleW : BundleR :=
  ⟨some [⟨some (.patient true ⟨some "123", none, none, none, none⟩)⟩,
         ⟨some (.observation true ⟨some ⟨some "Patient/123"⟩, none⟩)⟩]⟩

/-- Counterexample bundle for C2: the Patient id itself contains the
substring "Patient/", which Python str.replace strips from the reference
as well. -/
def bundleCx : BundleR :=
  ⟨some [⟨some (.patient true ⟨some "Patient/x", none, none, none, none⟩)⟩,
         ⟨some (.observation true ⟨some ⟨some "Patient/Patient/x"⟩, none⟩)⟩]⟩

end Deid

namespace ModelRisk

/-- A Python value arriving in the features mapping of
features.patient.ready.  Strings carry the result of Python float(s)
(some q when the text parses as a float, none otherwise); other
non-coercible objects are PyVal.obj. -/
inductive PyVal where
  | int (n : Int)
  | float (q : ℚ)
  | bool (b : Bool)
  | none
  | str (floatOfStr : Option ℚ)
  | obj
deriving DecidableEq

/-- The per-feature coercion of prepare_feature_vector
(src/modelrisque/app/main.py:246-264): numbers (bool included, since
Python bool is an int) coerce via float(), None and an absent feature give
0.0, anything else is float()-ed with fallback 0.0. -/
def coerceFeature : Option PyVal → ℚ
  | some (.int n) => (n : ℚ)
  | some (.float q) => q
  | some (.bool b) => if b then 1 else 0
  | some .none => 0
  | some (.str c) =>
    match c with
    | some q => q
    | none => 0
  | some .obj => 0
  | Option.none => 0

/-- The 22 hand-written feature names of create_dummy_model
(src/modelrisque/app/main.py:113-122). -/
def baseFeatureNames : List String :=
  ["age", "gender_male", "gender_female",
   "total_conditions", "active_conditions", "chronic_conditions",
   "total_medications", "active_medications",
   "heart_rate_mean", "blood_pressure_mean", "temperature_mean",
   "condition_cardiovascular", "condition_diabetes", "condition_respiratory",
   "medication_cardiovascular", "medication_diabetes",
   "entity_disease", "entity_symptom", "concept_cardiovascular",
   "biobert_emb_0", "biobert_emb_1", "biobert_emb_2"]

/-- The while-loop of create_dummy_model that appends "feature_<len>" until
the list reaches n names (src/modelrisque/app/main.py:125-126). -/
def padFeatureNames (l : List String) (n : Nat) : List String :=
  l ++ ((List.range n).drop l.length).map (fun k => "feature_" ++ toString k)

/-- The dummy model's 50 feature names. -/
def dummyFeatureNames : List String := padFeatureNames baseFeatureNames 50

/-- StandardScaler.transform on one row: (x - mean) / scale per position;
sklearn raises on a feature-count mismatch, which the caller's except
branch turns into a zero vector. -/
def scalerTransform (mean scale v : List ℚ) : Option (List ℚ) :=
  if mean.length = v.length ∧ scale.length = v.length then
    some ((v.zip (mean.zip scale)).map (fun x => (x.1 - x.2.1) / x.2.2))
  else Option.none

/-- ModelRiskService.prepare_feature_vector
(src/modelrisque/app/main.py:238-282): one slot per expected feature name
in order, value coerced from the mapping with 0.0 default, the redundant
while-padding, then the scaler; the except fallback is a zero vector of
the expected length. -/
def prepare_feature_vector (feature_names : List String)
    (scaler : Option (List ℚ × List ℚ)) (features : List (String × PyVal)) : List ℚ :=
  let fv := feature_names.map (fun n => coerceFeature (alookup features n))
  let fv := fv ++ List.replicate (feature_names.length - fv.length) 0
  match scaler with
  | some (mean, scale) =>
    match scalerTransform mean scale fv with
    | some v => v
    | Option.none => List.replicate feature_names.length 0
  | Option.none => fv

/-- ModelRiskService._categorize_risk (src/modelrisque/app/main.py:426-437). -/
def _categorize_risk (risk_score : ℚ) : String :=
  if risk_score < 3/10 then "LOW"
  else if risk_score < 6/10 then "MODERATE"
  else if risk_score < 8/10 then "HIGH"
  else "CRITICAL"

/-- The model-service context at scoring time: the expected feature list,
the fitted scaler parameters, the classifier P(class 1) and the SHAP
row explainer, abstracted from the loaded artifacts. -/
structure MEnv where
  feature_names : List String
  scaler : Option (List ℚ × List ℚ)
  predictProba : List ℚ → ℚ
  shapOf : List ℚ → List ℚ

/-- Significance order of SHAP contributions: sorted(...) with
key abs, reverse True. -/
def absDesc (a b : String × ℚ) : Bool := decide (|b.2| ≤ |a.2|)

/-- ModelRiskService.predict_risk (src/modelrisque/app/main.py:284-317).
ok models whether the try body (model, explainer) runs without raising;
the except branch returns the neutral (0.5, 0.0, empty) result.  The SHAP
dict keeps contributions with |v| > 0.001 (dict insertion order), then is
rebuilt sorted by descending absolute value (Python sorted, a stable
sort, = mergeSort). -/
def predict_risk (m : MEnv) (ok : Bool) (features : List (String × PyVal)) :
    ℚ × ℚ × List (String × ℚ) :=
  if ok then
    let v := prepare_feature_vector m.feature_names m.scaler features
    let p := m.predictProba v
    let confidence := max p (1 - p) - 1/2
    let shap := m.shapOf v
    let expl := (m.feature_names.zip shap).foldl
      (fun acc kv => if 1/1000 < |kv.2| then dinsert acc kv.1 kv.2 else acc) []
    (p, confidence, expl.mergeSort absDesc)
  else
    (1/2, 0, [])

/-- ModelRiskService.create_explanation_text
(src/modelrisque/app/main.py:347-368).  fmtInc/fmtDec abstract the two
f-string renderings "<Feature> increases/decreases risk (impact: ...)". -/
def create_explanation_text (fmtInc fmtDec : String → ℚ → String)
    (shap_values : List (String × ℚ)) : String :=
  if shap_values.isEmpty then "No significant risk factors identified."
  else
    let top_factors := shap_values.take 5
    let explanations := top_factors.map
      (fun kv => if 0 < kv.2 then fmtInc kv.1 kv.2 else fmtDec kv.1 kv.2)
    if explanations.isEmpty then "Risk assessment based on overall health profile."
    else "Key risk factors: " ++ String.intercalate "; " explanations

end ModelRisk

namespace ScoreApi

/-- categorize_risk_level (src/scoreapi/app/main.py:139-148). -/
def categorize_risk_level (risk_score : ℚ) : String :=
  if risk_score < 3/10 then "LOW"
  else if risk_score < 6/10 then "MODERATE"
  else if risk_score < 8/10 then "HIGH"
  else "CRITICAL"

end ScoreApi

namespace Featurizer

/-- A Python value in the extracted feature mapping.  Numeric values are
split into int/float/nan/inf (np.isnan/np.isinf pick out the last two);
bool is kept separate but, as in Python, is treated as a number by
isinstance(value, (int, float)); other covers lists and similar
non-scalar values. -/
inductive FValue where
  | none
  | int (n : Int)
  | float (q : ℚ)
  | nan
  | inf
  | bool (b : Bool)
  | str (s : String)
  | other
deriving DecidableEq

/-- One iteration of the loop in FeatureExtractor.normalize_features
(src/featurizer/app/main.py:555-579): None becomes 0; int/float (bools
included, NaN and infinity zeroed) become floats; the gender strings
'male'/'female' are re-keyed one-hot (the original key is not written);
every other value is copied through unchanged. -/
def normStep (acc : List (String × FValue)) (kv : String × FValue) :
    List (String × FValue) :=
  match kv.2 with
  | .none => dinsert acc kv.1 (.int 0)
  | .int n => dinsert acc kv.1 (.float (n : ℚ))
  | .float q => dinsert acc kv.1 (.float q)
  | .nan => dinsert acc kv.1 (.int 0)
  | .inf => dinsert acc kv.1 (.int 0)
  | .bool b => dinsert acc kv.1 (.float (if b then 1 else 0))
  | .str s =>
    if s = "male" ∨ s = "female" then dinsert acc (kv.1 ++ "_" ++ s) (.int 1)
    else dinsert acc kv.1 (.str s)
  | .other => dinsert acc kv.1 .other

/-- FeatureExtractor.normalize_features (src/featurizer/app/main.py:555-579). -/
def normalize_features (features : List (String × FValue)) : List (String × FValue) :=
  features.foldl normStep []

/-- FeatureExtractor._categorize_age (src/featurizer/app/main.py:244-257),
whose string values ('elderly' etc.) flow into the feature mapping. -/
def _categorize_age (age : Int) : String :=
  if age < 18 then "pediatric"
  else if age < 35 then "young_adult"
  else if age < 50 then "middle_aged"
  else if age < 65 then "older_adult"
  else "elderly"

/-- A numeric value (Python int or float). -/
def FValue.isNumeric : FValue → Bool
  | .int _ => true
  | .float _ => true
  | _ => false

/-- What normalize_features guarantees of an output value: never None,
NaN, infinite or boolean, and never the raw gender strings — but an
arbitrary other string or non-scalar value may remain. -/
def okOut : FValue → Bool
  | .none => false
  | .nan => false
  | .inf => false
  | .bool _ => false
  | .str s => !(s = "male" ∨ s = "female" : Bool)
  | _ => true

end Featurizer

theorem alookup_dinsert {α β : Type} [DecidableEq α] (l : List (α × β)) (k k' : α) (v : β) :
    alookup (dinsert l k v) k' = if k = k' then some v else alookup l k' := by
  induction l with
  | nil => by_cases h : k = k' <;> simp [dinsert, alookup, h]
  | cons hd t ih =>
    obtain ⟨a, b⟩ := hd
    by_cases hak : a = k
    · subst hak
      by_cases h : a = k' <;> simp [dinsert, alookup, h]
    · by_cases h : a = k'
      · subst h
        simp [dinsert, alookup, hak, Ne.symm hak]
      · simp [dinsert, alookup, hak, h, ih]

theorem mem_dinsert {α β : Type} [DecidableEq α] (l : List (α × β)) (k : α) (v : β)
    (p : α × β) (hp : p ∈ dinsert l k v) : p = (k, v) ∨ p ∈ l := by
  induction l with
  | nil => simpa [dinsert] using hp
  | cons hd t ih =>
    obtain ⟨a, b⟩ := hd
    by_cases hak : a = k
    · subst hak
      rcases (by simpa [dinsert] using hp : p = (a, v) ∨ p ∈ t) with h | h
      · exact Or.inl (by simpa using h)
      · exact Or.inr (List.mem_cons_of_mem _ h)
    · rcases (by simpa [dinsert, hak] using hp : p = (a, b) ∨ p ∈ dinsert t k v) with h | h
      · exact Or.inr (by simp [h])
      · rcases ih h with h' | h'
        · exact Or.inl h'
        · exact Or.inr (List.mem_cons_of_mem _ h')

theorem dinsert_eq_append {α β : Type} [DecidableEq α] (l : List (α × β)) (k : α) (v : β)
    (h : k ∉ l.map Prod.fst) : dinsert l k v = l ++ [(k, v)] := by
  induction l with
  | nil => rfl
  | cons hd t ih =>
    obtain ⟨a, b⟩ := hd
    have hak : ¬(a = k) := by
      intro he
      exact h (by simp [he])
    simp only [dinsert, hak, if_false, List.cons_append, List.cons.injEq, true_and]
    exact ih (fun hm => h (by simp at hm ⊢; exact Or.inr hm))

theorem foldl_dinsert_filter {α β : Type} [DecidableEq α] (P : α × β → Prop)
    [DecidablePred P] :
    ∀ (l acc : List (α × β)), (l.map Prod.fst).Nodup →
      (∀ k ∈ l.map Prod.fst, k ∉ acc.map Prod.fst) →
      l.foldl (fun a kv => if P kv then dinsert a kv.1 kv.2 else a) acc =
        acc ++ l.filter (fun kv => decide (P kv)) := by
  intro l
  induction l with
  | nil => intro acc _ _; simp
  | cons kv rest ih =>
    intro acc hnd hdis
    obtain ⟨k, v⟩ := kv
    have hnd2 : (k :: rest.map Prod.fst).Nodup := by simpa using hnd
    have hknr : k ∉ rest.map Prod.fst := (List.nodup_cons.mp hnd2).1
    have hndr : (rest.map Prod.fst).Nodup := (List.nodup_cons.mp hnd2).2
    have hka : k ∉ acc.map Prod.fst := hdis k (by simp)
    by_cases hp : P (k, v)
    · have hstep : dinsert acc k v = acc ++ [(k, v)] := dinsert_eq_append acc k v hka
      have hdis' : ∀ k' ∈ rest.map Prod.fst, k' ∉ (acc ++ [(k, v)]).map Prod.fst := by
        intro k' hk' hmem
        simp only [List.map_append, List.mem_append] at hmem
        rcases hmem with hm | hm
        · exact hdis k' (by simp [hk']) hm
        · have : k' = k := by simpa using hm
          exact hknr (this ▸ hk')
      calc ((k, v) :: rest).foldl (fun a kv => if P kv then dinsert a kv.1 kv.2 else a) acc
          = rest.foldl (fun a kv => if P kv then dinsert a kv.1 kv.2 else a)
              (acc ++ [(k, v)]) := by simp [hp, hstep]
        _ = (acc ++ [(k, v)]) ++ rest.filter (fun kv => decide (P kv)) :=
            ih (acc ++ [(k, v)]) hndr hdis'
        _ = acc ++ (((k, v) :: rest).filter (fun kv => decide (P kv))) := by
            simp [List.filter_cons, hp]
    · calc ((k, v) :: rest).foldl (fun a kv => if P kv then dinsert a kv.1 kv.2 else a) acc
          = rest.foldl (fun a kv => if P kv then dinsert a kv.1 kv.2 else a) acc := by
            simp [hp]
        _ = acc ++ rest.filter (fun kv => decide (P kv)) :=
            ih acc hndr (fun k' hk' => hdis k' (by simp [hk']))
        _ = acc ++ (((k, v) :: rest).filter (fun kv => decide (P kv))) := by
            simp [List.filter_cons, hp]

theorem map_fst_zip_sublist {α β : Type} :
    ∀ (l1 : List α) (l2 : List β), ((l1.zip l2).map Prod.fst).Sublist l1 := by
  intro l1
  induction l1 with
  | nil => intro l2; simp
  | cons a t ih =>
    intro l2
    cases l2 with
    | nil => simp
    | cons b t2 => simpa using List.Sublist.cons₂ a (ih t2)

namespace Deid

theorem cons_colon_inj {a a' : List Char} {b b' : List Char}
    (ha : ∀ c ∈ a, c ≠ ':') (ha' : ∀ c ∈ a', c ≠ ':')
    (h : a ++ ':' :: b = a' ++ ':' :: b') : a = a' ∧ b = b' := by
  induction a generalizing a' with
  | nil =>
    cases a' with
    | nil => simpa using h
    | cons x t' =>
      exfalso
      have hx : x = ':' := by simpa using congrArg (fun l => l.head?) h.symm
      exact ha' x (by simp) hx
  | cons x t ih =>
    cases a' with
    | nil =>
      exfalso
      have hx : x = ':' := by simpa using congrArg (fun l => l.head?) h
      exact ha x (by simp) hx
    | cons x' t' =>
      have hx : x = x' := by simpa using congrArg (fun l => l.head?) h
      have htl : t ++ ':' :: b = t' ++ ':' :: b' := by
        simpa using congrArg List.tail h
      have := ih (fun c hc => ha c (List.mem_cons_of_mem _ hc))
        (fun c hc => ha' c (List.mem_cons_of_mem _ hc)) htl
      exact ⟨by simp [hx, this.1], this.2⟩

theorem cacheKey_inj {t x t' x' : String} (ht : ColonFree t) (ht' : ColonFree t')
    (h : cacheKey t x = cacheKey t' x') : t = t' ∧ x = x' := by
  have hd : t.data ++ ':' :: x.data = t'.data ++ ':' :: x'.data := by
    have := congrArg String.data h
    simpa [cacheKey, String.data_append] using this
  have h2 := cons_colon_inj ht ht' hd
  exact ⟨String.ext h2.1, String.ext h2.2⟩

theorem wellFormed_empty (env : Env) : WellFormed env St.empty := by
  constructor <;> intro x t p
  · intro _ h; simp [St.empty, alookup] at h
  · intro h; simp [St.empty, alookup] at h

theorem wellFormed_clearCache {env : Env} {st : St} (h : WellFormed env st) :
    WellFormed env (clearCache st) := by
  refine ⟨?_, h.2⟩
  intro x t p _ hl
  simp [clearCache, alookup] at hl

/-- Master lemma: under the invariant, get_or_create_pseudonym returns the
deterministic generate_pseudonym value whatever path served it, and the
invariant is preserved. -/
theorem get_or_create_spec (env : Env) (dbOk : Bool) (st : St)
    (x t : String) (ht : ColonFree t) (hwf : WellFormed env st) :
    (get_or_create_pseudonym env dbOk st x t).1 = generate_pseudonym env x t ∧
    WellFormed env (get_or_create_pseudonym env dbOk st x t).2 := by
  cases hc : alookup st.cache (cacheKey t x) with
  | some p =>
    have heq : get_or_create_pseudonym env dbOk st x t = (p, st) := by
      unfold get_or_create_pseudonym; rw [hc]
    rw [heq]
    exact ⟨hwf.1 x t p ht hc, hwf⟩
  | none =>
    cases dbOk with
    | false =>
      have heq : get_or_create_pseudonym env false st x t =
          (generate_pseudonym env x t, st) := by
        unfold get_or_create_pseudonym; rw [hc]; rfl
      rw [heq]
      exact ⟨rfl, hwf⟩
    | true =>
      cases hdb : alookup st.db (x, t) with
      | some p =>
        have heq : get_or_create_pseudonym env true st x t =
            (p, { st with cache := dinsert st.cache (cacheKey t x) p }) := by
          unfold get_or_create_pseudonym; rw [hc]; simp [hdb]
        rw [heq]
        have hp : p = generate_pseudonym env x t := hwf.2 x t p hdb
        refine ⟨hp, ?_, hwf.2⟩
        intro x' t' p' ht' hl
        rw [alookup_dinsert] at hl
        by_cases hk : cacheKey t x = cacheKey t' x'
        · obtain ⟨het, hex⟩ := cacheKey_inj ht ht' hk
          subst het; subst hex
          simp [hk] at hl
          simp [← hl, hp]
        · simp [hk] at hl
          exact hwf.1 x' t' p' ht' hl
      | none =>
        have heq : get_or_create_pseudonym env true st x t =
            (generate_pseudonym env x t,
             ⟨dinsert st.cache (cacheKey t x) (generate_pseudonym env x t),
              dinsert st.db (x, t) (generate_pseudonym env x t)⟩) := by
          unfold get_or_create_pseudonym; rw [hc]; simp [hdb]
        rw [heq]
        refine ⟨rfl, ?_, ?_⟩
        · intro x' t' p' ht' hl
          rw [alookup_dinsert] at hl
          by_cases hk : cacheKey t x = cacheKey t' x'
          · obtain ⟨het, hex⟩ := cacheKey_inj ht ht' hk
            subst het; subst hex
            simp [hk] at hl
            simp [← hl]
          · simp [hk] at hl
            exact hwf.1 x' t' p' ht' hl
        · intro x' t' p' hl
          rw [alookup_dinsert] at hl
          by_cases hk : (x, t) = (x', t')
          · have hex : x = x' := congrArg Prod.fst hk
            have het : t = t' := congrArg Prod.snd hk
            subst hex; subst het
            simp [hk] at hl
            simp [← hl]
          · simp [hk] at hl
            exact hwf.2 x' t' p' hl

theorem mapSt_spec {α β : Type} (env : Env) (f : St → α → β × St) (g : α → β)
    (hf : ∀ st a, WellFormed env st → (f st a).1 = g a ∧ WellFormed env (f st a).2) :
    ∀ (l : List α) (st : St), WellFormed env st →
      (mapSt f st l).1 = l.map g ∧ WellFormed env (mapSt f st l).2 := by
  intro l
  induction l with
  | nil => intro st hwf; exact ⟨rfl, hwf⟩
  | cons a rest ih =>
    intro st hwf
    obtain ⟨h1, h2⟩ := hf st a hwf
    obtain ⟨h3, h4⟩ := ih (f st a).2 h2
    exact ⟨by simp [mapSt, h1, h3], by simpa [mapSt] using h4⟩

theorem anonRef_spec (env : Env) (dbOk : Bool) (pfx ty : String) (hty : ColonFree ty)
    (st : St) (r : Reference) (hwf : WellFormed env st) :
    (anonRef env dbOk pfx ty st r).1 = anonRefPure env pfx ty r ∧
    WellFormed env (anonRef env dbOk pfx ty st r).2 := by
  obtain ⟨ref⟩ := r
  cases ref with
  | none => exact ⟨rfl, hwf⟩
  | some s =>
    by_cases h1 : pyTruthy s = true
    · by_cases h2 : pyStartsWith s pfx = true
      · obtain ⟨hv, hw⟩ := get_or_create_spec env dbOk st (pyReplace s pfx "") ty hty hwf
        refine ⟨?_, by simpa [anonRef, h1, h2] using hw⟩
        simp [anonRef, anonRefPure, h1, h2, hv]
      · refine ⟨by simp [anonRef, anonRefPure, h1, h2], by simpa [anonRef, h1, h2] using hwf⟩
    · refine ⟨by simp [anonRef, anonRefPure, h1], by simpa [anonRef, h1] using hwf⟩

theorem anonIdentifier_spec (env : Env) (dbOk : Bool) (st : St) (idr : Identifier)
    (hwf : WellFormed env st) :
    (anonIdentifier env dbOk st idr).1 = anonIdentifierPure env idr ∧
    WellFormed env (anonIdentifier env dbOk st idr).2 := by
  obtain ⟨v⟩ := idr
  cases v with
  | none => exact ⟨rfl, hwf⟩
  | some s =>
    by_cases h1 : pyTruthy s = true
    · obtain ⟨hv, hw⟩ := get_or_create_spec env dbOk st s "patient_identifier" (by decide) hwf
      refine ⟨?_, by simpa [anonIdentifier, h1] using hw⟩
      simp [anonIdentifier, anonIdentifierPure, h1, hv]
    · refine ⟨by simp [anonIdentifier, anonIdentifierPure, h1],
        by simpa [anonIdentifier, h1] using hwf⟩

theorem anonHumanName_spec (env : Env) (dbOk : Bool) (st : St) (n : HumanName)
    (hwf : WellFormed env st) :
    (anonHumanName env dbOk st n).1 = anonHumanNamePure env n ∧
    WellFormed env (anonHumanName env dbOk st n).2 := by
  obtain ⟨fam, giv⟩ := n
  have hgiven : ∀ st', WellFormed env st' →
      ∀ gl : Option (List String),
        (match gl with
          | some gs =>
            let r := mapSt (anonGiven env dbOk) st' gs
            ((some r.1 : Option (List String)), r.2)
          | none => (none, st')).1 =
          (match gl with
            | some gs => some (gs.map (fun g => generate_pseudonym env g "name"))
            | none => none) ∧
        WellFormed env
          (match gl with
            | some gs =>
              let r := mapSt (anonGiven env dbOk) st' gs
              ((some r.1 : Option (List String)), r.2)
            | none => (none, st')).2 := by
    intro st' hwf' gl
    cases gl with
    | none => exact ⟨rfl, hwf'⟩
    | some gs =>
      obtain ⟨h1, h2⟩ := mapSt_spec env (anonGiven env dbOk)
        (fun g => generate_pseudonym env g "name")
        (fun st a hw => get_or_create_spec env dbOk st a "name" (by decide) hw) gs st' hwf'
      exact ⟨by simpa using h1, h2⟩
  cases fam with
  | none =>
    obtain ⟨h1, h2⟩ := hgiven st hwf giv
    exact ⟨by simpa [anonHumanName, anonHumanNamePure] using h1,
      by simpa [anonHumanName] using h2⟩
  | some f =>
    by_cases h1 : pyTruthy f = true
    · obtain ⟨hv, hw⟩ := get_or_create_spec env dbOk st f "name" (by decide) hwf
      obtain ⟨h3, h4⟩ := hgiven (get_or_create_pseudonym env dbOk st f "name").2 hw giv
      constructor
      · simp only [anonHumanName, anonHumanNamePure, h1, if_pos]
        exact congrArg₂ HumanName.mk (by rw [hv]) (by simpa using h3)
      · simpa [anonHumanName, h1] using h4
    · obtain ⟨h3, h4⟩ := hgiven st hwf giv
      constructor
      · simp only [anonHumanName, anonHumanNamePure, h1, if_neg]
        exact congrArg₂ HumanName.mk rfl (by simpa using h3)
      · simpa [anonHumanName, h1] using h4

theorem anonContactPoint_spec (env : Env) (dbOk : Bool) (st : St) (c : ContactPoint)
    (hwf : WellFormed env st) :
    (anonContactPoint env dbOk st c).1 = anonContactPointPure env c ∧
    WellFormed env (anonContactPoint env dbOk st c).2 := by
  obtain ⟨sys, v⟩ := c
  cases v with
  | none => exact ⟨rfl, hwf⟩
  | some s =>
    by_cases h1 : pyTruthy s = true
    · match sys with
      | some "phone" =>
        obtain ⟨hv, hw⟩ := get_or_create_spec env dbOk st s "phone" (by decide) hwf
        exact ⟨by simp [anonContactPoint, anonContactPointPure, h1, hv],
          by simpa [anonContactPoint, h1] using hw⟩
      | some "email" =>
        obtain ⟨hv, hw⟩ := get_or_create_spec env dbOk st s "email" (by decide) hwf
        exact ⟨by simp [anonContactPoint, anonContactPointPure, h1, hv],
          by simpa [anonContactPoint, h1] using hw⟩
      | none =>
        exact ⟨by simp [anonContactPoint, anonContactPointPure, h1],
          by simpa [anonContactPoint, h1] using hwf⟩
      | some other =>
        by_cases hph : other = "phone"
        · subst hph
          obtain ⟨hv, hw⟩ := get_or_create_spec env dbOk st s "phone" (by decide) hwf
          exact ⟨by simp [anonContactPoint, anonContactPointPure, h1, hv],
            by simpa [anonContactPoint, h1] using hw⟩
        · by_cases hem : other = "email"
          · subst hem
            obtain ⟨hv, hw⟩ := get_or_create_spec env dbOk st s "email" (by decide) hwf
            exact ⟨by simp [anonContactPoint, anonContactPointPure, h1, hv],
              by simpa [anonContactPoint, h1] using hw⟩
          · exact ⟨by simp [anonContactPoint, anonContactPointPure, h1, hph, hem],
              by simpa [anonContactPoint, h1, hph, hem] using hwf⟩
    · exact ⟨by simp [anonContactPoint, anonContactPointPure, h1],
        by simpa [anonContactPoint, h1] using hwf⟩

theorem anonOptTruthyStr_spec (env : Env) (dbOk : Bool) (ty : String) (hty : ColonFree ty)
    (st : St) (v : Option String) (hwf : WellFormed env st) :
    (anonOptTruthyStr env dbOk ty st v).1 = anonOptTruthyStrPure env ty v ∧
    WellFormed env (anonOptTruthyStr env dbOk ty st v).2 := by
  cases v with
  | none => exact ⟨rfl, hwf⟩
  | some s =>
    by_cases h1 : pyTruthy s = true
    · obtain ⟨hv, hw⟩ := get_or_create_spec env dbOk st s ty hty hwf
      exact ⟨by simp [anonOptTruthyStr, anonOptTruthyStrPure, h1, hv],
        by simpa [anonOptTruthyStr, h1] using hw⟩
    · exact ⟨by simp [anonOptTruthyStr, anonOptTruthyStrPure, h1],
        by simpa [anonOptTruthyStr, h1] using hwf⟩

theorem anonOptList_spec {α β : Type} (env : Env) (f : St → α → β × St) (g : α → β)
    (hf : ∀ st a, WellFormed env st → (f st a).1 = g a ∧ WellFormed env (f st a).2)
    (st : St) (ol : Option (List α)) (hwf : WellFormed env st) :
    (anonOptList f st ol).1 = ol.map (List.map g) ∧
    WellFormed env (anonOptList f st ol).2 := by
  cases ol with
  | none => exact ⟨rfl, hwf⟩
  | some l =>
    obtain ⟨h1, h2⟩ := mapSt_spec env f g hf l st hwf
    exact ⟨by simp [anonOptList, h1], by simpa [anonOptList] using h2⟩

theorem anonOptRef_spec (env : Env) (dbOk : Bool) (pfx ty : String) (hty : ColonFree ty)
    (st : St) (or' : Option Reference) (hwf : WellFormed env st) :
    (anonOptRef env dbOk pfx ty st or').1 = or'.map (anonRefPure env pfx ty) ∧
    WellFormed env (anonOptRef env dbOk pfx ty st or').2 := by
  cases or' with
  | none => exact ⟨rfl, hwf⟩
  | some r =>
    obtain ⟨h1, h2⟩ := anonRef_spec env dbOk pfx ty hty st r hwf
    exact ⟨by simp [anonOptRef, h1], by simpa [anonOptRef] using h2⟩

theorem anonPatient_spec (env : Env) (dbOk : Bool) (st : St) (p : PatientR)
    (hwf : WellFormed env st) :
    (anonPatient env dbOk st p).1 = anonPatientPure env p ∧
    WellFormed env (anonPatient env dbOk st p).2 := by
  obtain ⟨h1, w1⟩ := anonOptTruthyStr_spec env dbOk "patient_id" (by decide) st p.id hwf
  obtain ⟨h2, w2⟩ := anonOptList_spec env (anonIdentifier env dbOk) (anonIdentifierPure env)
    (anonIdentifier_spec env dbOk) _ p.identifier w1
  obtain ⟨h3, w3⟩ := anonOptList_spec env (anonHumanName env dbOk) (anonHumanNamePure env)
    (anonHumanName_spec env dbOk) _ p.name w2
  obtain ⟨h4, w4⟩ := anonOptList_spec env (anonContactPoint env dbOk) (anonContactPointPure env)
    (anonContactPoint_spec env dbOk) _ p.telecom w3
  exact ⟨by simp only [anonPatient, anonPatientPure, h1, h2, h3, h4],
    by simpa [anonPatient] using w4⟩

theorem anonObservation_spec (env : Env) (dbOk : Bool) (st : St) (o : ObservationR)
    (hwf : WellFormed env st) :
    (anonObservation env dbOk st o).1 = anonObservationPure env o ∧
    WellFormed env (anonObservation env dbOk st o).2 := by
  obtain ⟨h1, w1⟩ := anonOptRef_spec env dbOk "Patient/" "patient_id" (by decide)
    st o.subject hwf
  obtain ⟨h2, w2⟩ := anonOptList_spec env
    (anonRef env dbOk "Practitioner/" "practitioner_id")
    (anonRefPure env "Practitioner/" "practitioner_id")
    (fun st' r hw => anonRef_spec env dbOk "Practitioner/" "practitioner_id"
      (by decide) st' r hw) _ o.performer w1
  exact ⟨by simp only [anonObservation, anonObservationPure, h1, h2],
    by simpa [anonObservation] using w2⟩

theorem anonCondition_spec (env : Env) (dbOk : Bool) (st : St) (c : ConditionR)
    (hwf : WellFormed env st) :
    (anonCondition env dbOk st c).1 = anonConditionPure env c ∧
    WellFormed env (anonCondition env dbOk st c).2 := by
  obtain ⟨h1, w1⟩ := anonOptRef_spec env dbOk "Patient/" "patient_id" (by decide)
    st c.subject hwf
  exact ⟨by simp only [anonCondition, anonConditionPure, h1],
    by simpa [anonCondition] using w1⟩

theorem anonMedicationRequest_spec (env : Env) (dbOk : Bool) (st : St)
    (m : MedicationRequestR) (hwf : WellFormed env st) :
    (anonMedicationRequest env dbOk st m).1 = anonMedicationRequestPure env m ∧
    WellFormed env (anonMedicationRequest env dbOk st m).2 := by
  obtain ⟨h1, w1⟩ := anonOptRef_spec env dbOk "Patient/" "patient_id" (by decide)
    st m.subject hwf
  obtain ⟨h2, w2⟩ := anonOptRef_spec env dbOk "Practitioner/" "practitioner_id" (by decide)
    _ m.requester w1
  exact ⟨by simp only [anonMedicationRequest, anonMedicationRequestPure, h1, h2],
    by simpa [anonMedicationRequest] using w2⟩

theorem anonEntry_spec (env : Env) (dbOk : Bool) (st : St) (e : Entry)
    (hwf : WellFormed env st) :
    (anonEntry env dbOk st e).1 = anonEntryPure env e ∧
    WellFormed env (anonEntry env dbOk st e).2 := by
  obtain ⟨res⟩ := e
  cases res with
  | none => exact ⟨rfl, hwf⟩
  | some r =>
    cases r with
    | patient ok p =>
      cases ok with
      | false => exact ⟨rfl, hwf⟩
      | true =>
        obtain ⟨h1, w1⟩ := anonPatient_spec env dbOk st p hwf
        exact ⟨by simp [anonEntry, anonEntryPure, anonymize_patient_resource, h1],
          by simpa [anonEntry, anonymize_patient_resource] using w1⟩
    | observation ok o =>
      cases ok with
      | false => exact ⟨rfl, hwf⟩
      | true =>
        obtain ⟨h1, w1⟩ := anonObservation_spec env dbOk st o hwf
        exact ⟨by simp [anonEntry, anonEntryPure, anonymize_observation_resource, h1],
          by simpa [anonEntry, anonymize_observation_resource] using w1⟩
    | condition ok c =>
      cases ok with
      | false => exact ⟨rfl, hwf⟩
      | true =>
        obtain ⟨h1, w1⟩ := anonCondition_spec env dbOk st c hwf
        exact ⟨by simp [anonEntry, anonEntryPure, anonymize_condition_resource, h1],
          by simpa [anonEntry, anonymize_condition_resource] using w1⟩
    | medicationRequest ok m =>
      cases ok with
      | false => exact ⟨rfl, hwf⟩
      | true =>
        obtain ⟨h1, w1⟩ := anonMedicationRequest_spec env dbOk st m hwf
        exact ⟨by simp [anonEntry, anonEntryPure, anonymize_medication_request_resource, h1],
          by simpa [anonEntry, anonymize_medication_request_resource] using w1⟩
    | other ty payload => exact ⟨rfl, hwf⟩

theorem anonymize_bundle_spec (env : Env) (dbOk : Bool) (st : St) (b : BundleR)
    (hwf : WellFormed env st) :
    (anonymize_bundle env dbOk st b).1 =
      ⟨b.entry.map (List.map (anonEntryPure env))⟩ ∧
    WellFormed env (anonymize_bundle env dbOk st b).2 := by
  obtain ⟨es⟩ := b
  cases es with
  | none => exact ⟨rfl, hwf⟩
  | some l =>
    obtain ⟨h1, h2⟩ := mapSt_spec env (anonEntry env dbOk) (anonEntryPure env)
      (anonEntry_spec env dbOk) l st hwf
    exact ⟨by simp [anonymize_bundle, h1], by simpa [anonymize_bundle] using h2⟩

theorem listStartsWith_append {α : Type} [DecidableEq α] (p s : List α) :
    listStartsWith (p ++ s) p = true := by
  induction p with
  | nil => cases s <;> rfl
  | cons a q ih => simp [listStartsWith, ih]

theorem pyStartsWith_append (pre P : String) : pyStartsWith (pre ++ P) pre = true := by
  unfold pyStartsWith
  rw [String.data_append]
  exact listStartsWith_append _ _

theorem pyTruthy_append_of_ne (pre P : String) (h : pre.data ≠ []) :
    pyTruthy (pre ++ P) = true := by
  unfold pyTruthy
  rw [String.data_append]
  cases hd : pre.data with
  | nil => exact absurd hd h
  | cons c cs => simp

end Deid

namespace ModelRisk

theorem prepare_pad_eq (names : List String) (features : List (String × PyVal)) :
    (names.map (fun n => coerceFeature (alookup features n))) ++
      List.replicate (names.length -
        (names.map (fun n => coerceFeature (alookup features n))).length) 0 =
      names.map (fun n => coerceFeature (alookup features n)) := by
  simp

theorem prepare_feature_vector_length (names : List String)
    (scaler : Option (List ℚ × List ℚ)) (features : List (String × PyVal)) :
    (prepare_feature_vector names scaler features).length = names.length := by
  unfold prepare_feature_vector
  dsimp only
  rw [prepare_pad_eq]
  cases scaler with
  | none => simp
  | some ms =>
    obtain ⟨mean, scale⟩ := ms
    unfold scalerTransform
    by_cases h : mean.length = (names.map (fun n => coerceFeature (alookup features n))).length ∧
        scale.length = (names.map (fun n => coerceFeature (alookup features n))).length
    · simp only [h, and_self, if_true]
      simp [List.length_zip, h.1, h.2]
    · simp only [h, if_false]
      simp

end ModelRisk

namespace Featurizer

theorem normalize_aux (features : List (String × FValue)) :
    ∀ (l acc : List (String × FValue)), (∀ kv ∈ l, kv ∈ features) →
      (∀ q ∈ acc, okOut q.2 = true ∧ (FValue.isNumeric q.2 = false → q ∈ features)) →
      ∀ q ∈ l.foldl normStep acc,
        okOut q.2 = true ∧ (FValue.isNumeric q.2 = false → q ∈ features) := by
  intro l
  induction l with
  | nil => intro acc _ hacc q hq; exact hacc q hq
  | cons kv rest ih =>
    intro acc hl hacc q hq
    refine ih (normStep acc kv) (fun x hx => hl x (List.mem_cons_of_mem _ hx)) ?_ q
      (by simpa using hq)
    intro q' hq'
    have hkv : kv ∈ features := hl kv (by simp)
    obtain ⟨k, v⟩ := kv
    cases v with
    | none =>
      rcases mem_dinsert _ _ _ _ hq' with h | h
      · subst h; exact ⟨rfl, by intro hfalse; simp [FValue.isNumeric] at hfalse⟩
      · exact hacc q' h
    | int n =>
      rcases mem_dinsert _ _ _ _ hq' with h | h
      · subst h; exact ⟨rfl, by intro hfalse; simp [FValue.isNumeric] at hfalse⟩
      · exact hacc q' h
    | float x =>
      rcases mem_dinsert _ _ _ _ hq' with h | h
      · subst h; exact ⟨rfl, by intro hfalse; simp [FValue.isNumeric] at hfalse⟩
      · exact hacc q' h
    | nan =>
      rcases mem_dinsert _ _ _ _ hq' with h | h
      · subst h; exact ⟨rfl, by intro hfalse; simp [FValue.isNumeric] at hfalse⟩
      · exact hacc q' h
    | inf =>
      rcases mem_dinsert _ _ _ _ hq' with h | h
      · subst h; exact ⟨rfl, by intro hfalse; simp [FValue.isNumeric] at hfalse⟩
      · exact hacc q' h
    | bool b =>
      rcases mem_dinsert _ _ _ _ hq' with h | h
      · subst h; exact ⟨rfl, by intro hfalse; simp [FValue.isNumeric] at hfalse⟩
      · exact hacc q' h
    | str s =>
      by_cases hs : s = "male" ∨ s = "female"
      · have hq2 : q' ∈ dinsert acc (k ++ "_" ++ s) (.int 1) := by
          simpa [normStep, hs] using hq'
        rcases mem_dinsert _ _ _ _ hq2 with h | h
        · subst h; exact ⟨rfl, by intro hfalse; simp [FValue.isNumeric] at hfalse⟩
        · exact hacc q' h
      · have hq2 : q' ∈ dinsert acc k (.str s) := by
          simpa [normStep, hs] using hq'
        rcases mem_dinsert _ _ _ _ hq2 with h | h
        · subst h
          refine ⟨by simpa [okOut] using hs, fun _ => hkv⟩
        · exact hacc q' h
    | other =>
      rcases mem_dinsert _ _ _ _ hq' with h | h
      · subst h; exact ⟨rfl, fun _ => hkv⟩
      · exact hacc q' h

end Featurizer

/-- C1: Pseudonym resolution is deterministic.  generate_pseudonym is (by
construction of the embedding) a pure function of the original identifier,
identifier type and salt; and from any consistent store state, two calls of
get_or_create_pseudonym for the same (x, t) — whether each is served from
the in-process cache, the durable store, or fresh generation (dbOk
true/false), and even if the cache is cleared between the calls — return
the same pseudonym, namely generate_pseudonym x t. -/
theorem claim_C1_pseudonym_determinism (env : Deid.Env) (st : Deid.St)
    (x t : String) (dbOk₁ dbOk₂ : Bool) (clear : Bool)
    (ht : Deid.ColonFree t) (hwf : Deid.WellFormed env st) :
    (Deid.get_or_create_pseudonym env dbOk₂
        (if clear then Deid.clearCache (Deid.get_or_create_pseudonym env dbOk₁ st x t).2
         else (Deid.get_or_create_pseudonym env dbOk₁ st x t).2) x t).1 =
      (Deid.get_or_create_pseudonym env dbOk₁ st x t).1 ∧
    (Deid.get_or_create_pseudonym env dbOk₁ st x t).1 = Deid.generate_pseudonym env x t := by
  obtain ⟨h1, hwf1⟩ := Deid.get_or_create_spec env dbOk₁ st x t ht hwf
  have hwf2 : Deid.WellFormed env
      (if clear then Deid.clearCache (Deid.get_or_create_pseudonym env dbOk₁ st x t).2
       else (Deid.get_or_create_pseudonym env dbOk₁ st x t).2) := by
    cases clear with
    | true => simpa using Deid.wellFormed_clearCache hwf1
    | false => simpa using hwf1
  obtain ⟨h2, _⟩ := Deid.get_or_create_spec env dbOk₂ _ x t ht hwf2
  exact ⟨h2.trans h1.symm, h1⟩

/-- Concrete witness for C1: a fixed environment, the empty store, the
identifier "12345" of type "patient_id", first call creating the mapping,
cache cleared, second call served from the durable store. -/
theorem claim_C1_pseudonym_determinism_witness :
    (Deid.get_or_create_pseudonym
        ⟨fun s => s, fun n _ => n, fun _ => "N", fun _ => "P", fun _ => "E", "s"⟩ true
        (Deid.clearCache (Deid.get_or_create_pseudonym
          ⟨fun s => s, fun n _ => n, fun _ => "N", fun _ => "P", fun _ => "E", "s"⟩ true
          Deid.St.empty "12345" "patient_id").2) "12345" "patient_id").1 =
      (Deid.get_or_create_pseudonym
        ⟨fun s => s, fun n _ => n, fun _ => "N", fun _ => "P", fun _ => "E", "s"⟩ true
        Deid.St.empty "12345" "patient_id").1 ∧
    (Deid.get_or_create_pseudonym
        ⟨fun s => s, fun n _ => n, fun _ => "N", fun _ => "P", fun _ => "E", "s"⟩ true
        Deid.St.empty "12345" "patient_id").1 =
      Deid.generate_pseudonym
        ⟨fun s => s, fun n _ => n, fun _ => "N", fun _ => "P", fun _ => "E", "s"⟩
        "12345" "patient_id" := by
  have := claim_C1_pseudonym_determinism
    ⟨fun s => s, fun n _ => n, fun _ => "N", fun _ => "P", fun _ => "E", "s"⟩
    Deid.St.empty "12345" "patient_id" true true true
    (by decide) (Deid.wellFormed_empty _)
  simpa using this

/-- C2 (amended): referential consistency of anonymization.  For a bundle
whose i-th entry is a successfully validated Patient with truthy id P and
whose j-th entry is a successfully validated Observation, Condition or
MedicationRequest whose subject reference is "Patient/" ++ P, and provided
stripping every "Patient/" occurrence from that reference yields P back
(Python str.replace removes all occurrences, so this needs P itself to
contain no "Patient/" substring), anonymize_bundle rewrites the Patient id
to the pseudonym of (P, patient_id) and the subject reference to exactly
"Patient/" followed by that same pseudonym. -/
theorem claim_C2_referential_consistency (env : Deid.Env) (dbOk : Bool) (st : Deid.St)
    (b : Deid.BundleR) (es : List Deid.Entry) (i j : Nat) (p : Deid.PatientR) (P : String)
    (ej : Deid.Entry)
    (hwf : Deid.WellFormed env st) (hes : b.entry = some es)
    (hi : es[i]? = some ⟨some (.patient true p)⟩)
    (hP : p.id = some P) (hPt : Deid.pyTruthy P = true)
    (hj : es[j]? = some ej) (hrj : Deid.entryIsParsedReferrer ej = true)
    (href : Deid.entrySubjectRef ej = some ("Patient/" ++ P))
    (hstrip : Deid.pyReplace ("Patient/" ++ P) "Patient/" "" = P) :
    ∃ es', (Deid.anonymize_bundle env dbOk st b).1.entry = some es' ∧
      es'[i]? = some ⟨some (.patient true (Deid.anonPatientPure env p))⟩ ∧
      (Deid.anonPatientPure env p).id =
        some ((Deid.get_or_create_pseudonym env dbOk st P "patient_id").1) ∧
      ∃ ej', es'[j]? = some ej' ∧
        Deid.entrySubjectRef ej' =
          some ("Patient/" ++ (Deid.get_or_create_pseudonym env dbOk st P "patient_id").1) := by
  have hQ : (Deid.get_or_create_pseudonym env dbOk st P "patient_id").1 =
      Deid.generate_pseudonym env P "patient_id" :=
    (Deid.get_or_create_spec env dbOk st P "patient_id" (by decide) hwf).1
  obtain ⟨hb, _⟩ := Deid.anonymize_bundle_spec env dbOk st b hwf
  have htr : Deid.pyTruthy ("Patient/" ++ P) = true :=
    Deid.pyTruthy_append_of_ne "Patient/" P (by decide)
  have hsw : Deid.pyStartsWith ("Patient/" ++ P) "Patient/" = true :=
    Deid.pyStartsWith_append "Patient/" P
  refine ⟨es.map (Deid.anonEntryPure env), by rw [hb, hes]; rfl, ?_, ?_, ?_⟩
  · rw [List.getElem?_map, hi]
    simp [Deid.anonEntryPure]
  · rw [hQ]
    simp [Deid.anonPatientPure, Deid.anonOptTruthyStrPure, hP, hPt]
  · refine ⟨Deid.anonEntryPure env ej, by rw [List.getElem?_map, hj]; rfl, ?_⟩
    rw [hQ]
    obtain ⟨res⟩ := ej
    cases res with
    | none => simp [Deid.entryIsParsedReferrer] at hrj
    | some r =>
      cases r with
      | patient ok q => simp [Deid.entryIsParsedReferrer] at hrj
      | other ty payload => simp [Deid.entryIsParsedReferrer] at hrj
      | observation ok o =>
        have hok : ok = true := by simpa [Deid.entryIsParsedReferrer] using hrj
        subst hok
        obtain ⟨sub, perf⟩ := o
        cases sub with
        | none => simp [Deid.entrySubjectRef] at href
        | some r' =>
          obtain ⟨ref⟩ := r'
          cases ref with
          | none => simp [Deid.entrySubjectRef] at href
          | some s =>
            have hs : s = "Patient/" ++ P := by
              simpa [Deid.entrySubjectRef] using href
            subst hs
            simp [Deid.anonEntryPure, Deid.anonObservationPure, Deid.entrySubjectRef,
              Deid.anonRefPure, htr, hsw, hstrip]
      | condition ok c =>
        have hok : ok = true := by simpa [Deid.entryIsParsedReferrer] using hrj
        subst hok
        obtain ⟨sub⟩ := c
        cases sub with
        | none => simp [Deid.entrySubjectRef] at href
        | some r' =>
          obtain ⟨ref⟩ := r'
          cases ref with
          | none => simp [Deid.entrySubjectRef] at href
          | some s =>
            have hs : s = "Patient/" ++ P := by
              simpa [Deid.entrySubjectRef] using href
            subst hs
            simp [Deid.anonEntryPure, Deid.anonConditionPure, Deid.entrySubjectRef,
              Deid.anonRefPure, htr, hsw, hstrip]
      | medicationRequest ok m =>
        have hok : ok = true := by simpa [Deid.entryIsParsedReferrer] using hrj
        subst hok
        obtain ⟨sub, req⟩ := m
        cases sub with
        | none => simp [Deid.entrySubjectRef] at href
        | some r' =>
          obtain ⟨ref⟩ := r'
          cases ref with
          | none => simp [Deid.entrySubjectRef] at href
          | some s =>
            have hs : s = "Patient/" ++ P := by
              simpa [Deid.entrySubjectRef] using href
            subst hs
            simp [Deid.anonEntryPure, Deid.anonMedicationRequestPure, Deid.entrySubjectRef,
              Deid.anonRefPure, htr, hsw, hstrip]

/-- Witness for C2: the concrete two-entry bundle of Patient "123" and an
Observation referencing it, from the empty store. -/
theorem claim_C2_referential_consistency_witness :
    ∃ es', (Deid.anonymize_bundle Deid.env0 true Deid.St.empty Deid.bundleW).1.entry =
        some es' ∧
      es'[0]? = some ⟨some (.patient true
        (Deid.anonPatientPure Deid.env0 ⟨some "123", none, none, none, none⟩))⟩ ∧
      (Deid.anonPatientPure Deid.env0 ⟨some "123", none, none, none, none⟩).id =
        some ((Deid.get_or_create_pseudonym Deid.env0 true Deid.St.empty
          "123" "patient_id").1) ∧
      ∃ ej', es'[1]? = some ej' ∧
        Deid.entrySubjectRef ej' =
          some ("Patient/" ++ (Deid.get_or_create_pseudonym Deid.env0 true Deid.St.empty
            "123" "patient_id").1) :=
  claim_C2_referential_consistency Deid.env0 true Deid.St.empty Deid.bundleW
    [⟨some (.patient true ⟨some "123", none, none, none, none⟩)⟩,
     ⟨some (.observation true ⟨some ⟨some "Patient/123"⟩, none⟩)⟩]
    0 1 ⟨some "123", none, none, none, none⟩ "123"
    ⟨some (.observation true ⟨some ⟨some "Patient/123"⟩, none⟩)⟩
    (Deid.wellFormed_empty _) rfl (by decide) (by decide) (by decide)
    (by decide) (by decide) (by decide) (by decide)

/-- Counterexample for C2 as literally stated: with Patient id
"Patient/x" and subject reference "Patient/Patient/x" (= "Patient/" ++ id),
the anonymized reference is NOT "Patient/" ++ pseudonym(id), because the
source strips every "Patient/" occurrence from the reference and so
resolves "x" instead of "Patient/x". -/
theorem claim_C2_counterexample :
    (((Deid.anonymize_bundle Deid.env0 true Deid.St.empty Deid.bundleCx).1.entry.getD
        [])[1]?).map Deid.entrySubjectRef ≠
      some (some ("Patient/" ++
        (Deid.get_or_create_pseudonym Deid.env0 true Deid.St.empty
          "Patient/x" "patient_id").1)) := by
  decide

/-- C3: feature vectorization is total.  For every feature mapping and
scaler state the vector of prepare_feature_vector has exactly one slot per
expected feature name; unscaled, slot k holds the mapping's value at the
k-th name coerced to a number (0.0 when the name is absent, the value is
None, or float() fails); and the mapping of age 70 and total_conditions 5
against the dummy model's 50 names yields a 50-slot vector, non-zero
exactly at positions 0 (value 70) and 3 (value 5). -/
theorem claim_C3_feature_vectorization_total (names : List String)
    (scaler : Option (List ℚ × List ℚ)) (features : List (String × ModelRisk.PyVal)) :
    (ModelRisk.prepare_feature_vector names scaler features).length = names.length ∧
    ModelRisk.prepare_feature_vector names Option.none features =
      names.map (fun n => ModelRisk.coerceFeature (alookup features n)) ∧
    (ModelRisk.prepare_feature_vector ModelRisk.dummyFeatureNames Option.none
        [("age", .int 70), ("total_conditions", .int 5)]).length = 50 ∧
    (∀ i : Fin 50,
      ((ModelRisk.prepare_feature_vector ModelRisk.dummyFeatureNames Option.none
          [("age", .int 70), ("total_conditions", .int 5)]).getD i 0 ≠ 0 ↔
        (i.val = 0 ∨ i.val = 3))) ∧
    (ModelRisk.prepare_feature_vector ModelRisk.dummyFeatureNames Option.none
        [("age", .int 70), ("total_conditions", .int 5)]).getD 0 0 = 70 ∧
    (ModelRisk.prepare_feature_vector ModelRisk.dummyFeatureNames Option.none
        [("age", .int 70), ("total_conditions", .int 5)]).getD 3 0 = 5 := by
  refine ⟨ModelRisk.prepare_feature_vector_length names scaler features, ?_, ?_, ?_, ?_, ?_⟩
  · unfold ModelRisk.prepare_feature_vector
    dsimp only
    rw [ModelRisk.prepare_pad_eq]
  · decide
  · decide
  · decide
  · decide

/-- C4: risk bucketing is a pure function of risk_score with fixed
boundaries, computed identically by the scoring engine and the score API:
LOW iff score < 0.3, MODERATE iff 0.3 <= score < 0.6, HIGH iff
0.6 <= score < 0.8, CRITICAL iff 0.8 <= score; both functions are
extensionally equal; and 0.29 maps to LOW, 0.3 and 0.59 to MODERATE, 0.6
and 0.79 to HIGH, 0.8 to CRITICAL. -/
theorem claim_C4_risk_bucketing (r : ℚ) :
    ModelRisk._categorize_risk r = ScoreApi.categorize_risk_level r ∧
    (ModelRisk._categorize_risk r = "LOW" ↔ r < 3/10) ∧
    (ModelRisk._categorize_risk r = "MODERATE" ↔ 3/10 ≤ r ∧ r < 6/10) ∧
    (ModelRisk._categorize_risk r = "HIGH" ↔ 6/10 ≤ r ∧ r < 8/10) ∧
    (ModelRisk._categorize_risk r = "CRITICAL" ↔ 8/10 ≤ r) ∧
    ModelRisk._categorize_risk (29/100) = "LOW" ∧
    ModelRisk._categorize_risk (3/10) = "MODERATE" ∧
    ModelRisk._categorize_risk (59/100) = "MODERATE" ∧
    ModelRisk._categorize_risk (6/10) = "HIGH" ∧
    ModelRisk._categorize_risk (79/100) = "HIGH" ∧
    ModelRisk._categorize_risk (8/10) = "CRITICAL" := by
  refine ⟨rfl, ?_, ?_, ?_, ?_,
    by norm_num [ModelRisk._categorize_risk],
    by norm_num [ModelRisk._categorize_risk],
    by norm_num [ModelRisk._categorize_risk],
    by norm_num [ModelRisk._categorize_risk],
    by norm_num [ModelRisk._categorize_risk],
    by norm_num [ModelRisk._categorize_risk]⟩ <;>
  · unfold ModelRisk._categorize_risk
    split_ifs with h1 h2 h3 <;> simp_all <;>
      first
      | linarith
      | (intro h; linarith)

/-- C5 (amended): the normalization pass eliminates None, NaN, infinity,
booleans and the gender strings 'male'/'female' (None, NaN and infinity
become 0, booleans become 0.0/1.0, the gender strings become one-hot
numeric features under a new key) — but any other string value (such as
'elderly' or 'unknown') and any non-scalar value passes through unchanged
as-is, so not every output value is a number. -/
theorem claim_C5_normalize_partial (features : List (String × Featurizer.FValue))
    (p : String × Featurizer.FValue)
    (hp : p ∈ Featurizer.normalize_features features) :
    Featurizer.okOut p.2 = true ∧
    (Featurizer.FValue.isNumeric p.2 = false → p ∈ features) :=
  Featurizer.normalize_aux features features [] (fun _ h => h) (by simp) p hp

/-- Witness for C5 (amended): an int-valued feature comes out as the float
it coerces to. -/
theorem claim_C5_normalize_partial_witness :
    Featurizer.okOut (Featurizer.FValue.float 1) = true ∧
    (Featurizer.FValue.isNumeric (Featurizer.FValue.float 1) = false →
      ("age", Featurizer.FValue.float 1) ∈ [("age", Featurizer.FValue.int 1)]) :=
  claim_C5_normalize_partial [("age", Featurizer.FValue.int 1)]
    ("age", Featurizer.FValue.float 1) (by decide)

/-- Counterexample for C5 as literally stated: the mapping containing
gender 'unknown' and the age_group string produced by _categorize_age 70
('elderly') normalizes to an output that still holds those strings, which
are not numbers. -/
theorem claim_C5_counterexample :
    ("age_group", Featurizer.FValue.str (Featurizer._categorize_age 70)) ∈
      Featurizer.normalize_features
        [("gender", Featurizer.FValue.str "unknown"),
         ("age_group", Featurizer.FValue.str (Featurizer._categorize_age 70))] ∧
    Featurizer.FValue.isNumeric
      (Featurizer.FValue.str (Featurizer._categorize_age 70)) = false := by
  decide

/-- C6: the attribution of predict_risk on the success path contains
exactly the (feature_name, contribution) pairs with |contribution| >
0.001, in non-increasing order of absolute contribution.  (Stated for an
expected-feature list without duplicate names, as a model schema has; with
duplicates the Python dict the pairs pass through would collapse them.) -/
theorem claim_C6_attribution_filtered_sorted (m : ModelRisk.MEnv)
    (features : List (String × ModelRisk.PyVal)) (hnd : m.feature_names.Nodup) :
    ((ModelRisk.predict_risk m true features).2.2).Perm
      ((m.feature_names.zip (m.shapOf (ModelRisk.prepare_feature_vector m.feature_names
          m.scaler features))).filter (fun kv => decide ((1 : ℚ)/1000 < |kv.2|))) ∧
    ((ModelRisk.predict_risk m true features).2.2).Sorted
      (fun a b => |b.2| ≤ |a.2|) := by
  have hkeys : (((m.feature_names.zip (m.shapOf (ModelRisk.prepare_feature_vector
      m.feature_names m.scaler features))).map Prod.fst)).Nodup :=
    List.Nodup.sublist (map_fst_zip_sublist _ _) hnd
  have hexpl := foldl_dinsert_filter (fun kv : String × ℚ => (1 : ℚ)/1000 < |kv.2|)
    (m.feature_names.zip (m.shapOf (ModelRisk.prepare_feature_vector
      m.feature_names m.scaler features))) [] hkeys (by simp)
  have hpr : (ModelRisk.predict_risk m true features).2.2 =
      ((m.feature_names.zip (m.shapOf (ModelRisk.prepare_feature_vector m.feature_names
          m.scaler features))).filter
        (fun kv => decide ((1 : ℚ)/1000 < |kv.2|))).mergeSort ModelRisk.absDesc := by
    unfold ModelRisk.predict_risk
    dsimp only
    rw [hexpl]
    simp
  constructor
  · rw [hpr]
    exact List.mergeSort_perm _ _
  · rw [hpr]
    have hsorted := @List.sorted_mergeSort _ ModelRisk.absDesc
      (fun a b c hab hbc => by
        simp only [ModelRisk.absDesc, decide_eq_true_eq] at hab hbc ⊢
        exact le_trans hbc hab)
      (fun a b => by
        simp only [ModelRisk.absDesc, Bool.or_eq_true, decide_eq_true_eq]
        exact le_total _ _)
      ((m.feature_names.zip (m.shapOf (ModelRisk.prepare_feature_vector m.feature_names
          m.scaler features))).filter (fun kv => decide ((1 : ℚ)/1000 < |kv.2|)))
    exact hsorted.imp (fun h => by
      simpa [ModelRisk.absDesc] using h)

/-- Witness for C6: a two-feature model whose explainer returns
contributions 1 and 0; the attribution keeps exactly the significant pair. -/
theorem claim_C6_attribution_filtered_sorted_witness :
    ((ModelRisk.predict_risk ⟨["a", "b"], Option.none, fun _ => 1/2, fun _ => [1, 0]⟩
        true []).2.2).Perm
      (((["a", "b"].zip ((fun (_ : List ℚ) => ([1, 0] : List ℚ))
          (ModelRisk.prepare_feature_vector ["a", "b"] Option.none []))).filter
        (fun kv => decide ((1 : ℚ)/1000 < |kv.2|)))) ∧
    ((ModelRisk.predict_risk ⟨["a", "b"], Option.none, fun _ => 1/2, fun _ => [1, 0]⟩
        true []).2.2).Sorted (fun a b => |b.2| ≤ |a.2|) :=
  claim_C6_attribution_filtered_sorted
    ⟨["a", "b"], Option.none, fun _ => 1/2, fun _ => [1, 0]⟩ [] (by decide)

/-- C7: neutral fallback on scoring failure.  When the prediction/
explanation body raises, predict_risk returns exactly risk 0.5,
confidence 0.0 and an empty attribution, and create_explanation_text on an
empty attribution is the fixed no-significant-risk-factors message. -/
theorem claim_C7_neutral_fallback (m : ModelRisk.MEnv)
    (features : List (String × ModelRisk.PyVal))
    (fmtInc fmtDec : String → ℚ → String) :
    ModelRisk.predict_risk m false features = (1/2, 0, []) ∧
    ModelRisk.create_explanation_text fmtInc fmtDec [] =
      "No significant risk factors identified." :=
  ⟨rfl, rfl⟩

/-- C8: per-resource anonymization failure is isolated.  Under a
consistent store, anonymize_bundle maps every entry independently through
its per-entry transform, a failing entry (whose type-specific anonymizer
raises at validation) comes out with its original unanonymized content,
and every other entry is still anonymized normally (the per-entry
transform, which on success equals the pure rewrite). -/
theorem claim_C8_failure_isolated (env : Deid.Env) (dbOk : Bool) (st : Deid.St)
    (b : Deid.BundleR) (es : List Deid.Entry)
    (hwf : Deid.WellFormed env st) (hes : b.entry = some es) :
    (Deid.anonymize_bundle env dbOk st b).1.entry =
      some (es.map (Deid.anonEntryPure env)) ∧
    ∀ e ∈ es, Deid.entryFails e = true → Deid.anonEntryPure env e = e := by
  obtain ⟨hb, _⟩ := Deid.anonymize_bundle_spec env dbOk st b hwf
  refine ⟨by rw [hb, hes]; rfl, ?_⟩
  intro e _ hf
  obtain ⟨res⟩ := e
  cases res with
  | none => simp [Deid.entryFails] at hf
  | some r =>
    cases r with
    | patient ok p =>
      have : ok = false := by simpa [Deid.entryFails] using hf
      subst this
      simp [Deid.anonEntryPure]
    | observation ok o =>
      have : ok = false := by simpa [Deid.entryFails] using hf
      subst this
      simp [Deid.anonEntryPure]
    | condition ok c =>
      have : ok = false := by simpa [Deid.entryFails] using hf
      subst this
      simp [Deid.anonEntryPure]
    | medicationRequest ok m =>
      have : ok = false := by simpa [Deid.entryFails] using hf
      subst this
      simp [Deid.anonEntryPure]
    | other ty payload => simp [Deid.entryFails] at hf

/-- Witness for C8: a bundle whose first entry is a Patient that fails
validation and whose second is a valid Observation; the failed entry
passes through unchanged while the rest of the bundle is anonymized. -/
theorem claim_C8_failure_isolated_witness :
    (Deid.anonymize_bundle Deid.env0 true Deid.St.empty
        ⟨some [⟨some (.patient false ⟨some "123", none, none, none, none⟩)⟩,
               ⟨some (.observation true ⟨some ⟨some "Patient/123"⟩, none⟩)⟩]⟩).1.entry =
      some ([⟨some (.patient false ⟨some "123", none, none, none, none⟩)⟩,
             ⟨some (.observation true ⟨some ⟨some "Patient/123"⟩, none⟩)⟩].map
        (Deid.anonEntryPure Deid.env0)) ∧
    ∀ e ∈ [(⟨some (.patient false ⟨some "123", none, none, none, none⟩)⟩ : Deid.Entry),
           ⟨some (.observation true ⟨some ⟨some "Patient/123"⟩, none⟩)⟩],
      Deid.entryFails e = true → Deid.anonEntryPure Deid.env0 e = e :=
  claim_C8_failure_isolated Deid.env0 true Deid.St.empty
    ⟨some [⟨some (.patient false ⟨some "123", none, none, none, none⟩)⟩,
           ⟨some (.observation true ⟨some ⟨some "Patient/123"⟩, none⟩)⟩]⟩
    [⟨some (.patient false ⟨some "123", none, none, none, none⟩)⟩,
     ⟨some (.observation true ⟨some ⟨some "Patient/123"⟩, none⟩)⟩]
    (Deid.wellFormed_empty _) rfl

/-- C9: unknown resource types pass through unmodified.  Under a
consistent store, anonymize_bundle maps every entry through its per-entry
transform, and on any entry whose resourceType is outside Patient,
Observation, Condition and MedicationRequest (or that carries no resource)
that transform is the identity. -/
theorem claim_C9_unknown_types_pass_through (env : Deid.Env) (dbOk : Bool) (st : Deid.St)
    (b : Deid.BundleR) (es : List Deid.Entry)
    (hwf : Deid.WellFormed env st) (hes : b.entry = some es) :
    (Deid.anonymize_bundle env dbOk st b).1.entry =
      some (es.map (Deid.anonEntryPure env)) ∧
    ∀ e ∈ es, Deid.entryIsUnhandled e = true → Deid.anonEntryPure env e = e := by
  obtain ⟨hb, _⟩ := Deid.anonymize_bundle_spec env dbOk st b hwf
  refine ⟨by rw [hb, hes]; rfl, ?_⟩
  intro e _ hu
  obtain ⟨res⟩ := e
  cases res with
  | none => rfl
  | some r =>
    cases r with
    | patient ok p => simp [Deid.entryIsUnhandled] at hu
    | observation ok o => simp [Deid.entryIsUnhandled] at hu
    | condition ok c => simp [Deid.entryIsUnhandled] at hu
    | medicationRequest ok m => simp [Deid.entryIsUnhandled] at hu
    | other ty payload => rfl

/-- Witness for C9: a bundle holding a DiagnosticReport and a Patient; the
DiagnosticReport entry is returned with identical content. -/
theorem claim_C9_unknown_types_pass_through_witness :
    (Deid.anonymize_bundle Deid.env0 true Deid.St.empty
        ⟨some [⟨some (.other "DiagnosticReport" "report-payload")⟩,
               ⟨some (.patient true ⟨some "123", none, none, none, none⟩)⟩]⟩).1.entry =
      some ([⟨some (.other "DiagnosticReport" "report-payload")⟩,
             ⟨some (.patient true ⟨some "123", none, none, none, none⟩)⟩].map
        (Deid.anonEntryPure Deid.env0)) ∧
    ∀ e ∈ [(⟨some (.other "DiagnosticReport" "report-payload")⟩ : Deid.Entry),
           ⟨some (.patient true ⟨some "123", none, none, none, none⟩)⟩],
      Deid.entryIsUnhandled e = true → Deid.anonEntryPure Deid.env0 e = e :=
  claim_C9_unknown_types_pass_through Deid.env0 true Deid.St.empty
    ⟨some [⟨some (.other "DiagnosticReport" "report-payload")⟩,
           ⟨some (.patient true ⟨some "123", none, none, none, none⟩)⟩]⟩
    [⟨some (.other "DiagnosticReport" "report-payload")⟩,
     ⟨some (.patient true ⟨some "123", none, none, none, none⟩)⟩]
    (Deid.wellFormed_empty _) rfl

/-- C10 (implicit): when the input string does not parse/validate as a
Bundle, anonymize_bundle returns it unchanged, and process_message still
publishes it: the output message carries the raw un-anonymized bundle text
under the same source and eventType as a successfully anonymized one. -/
theorem claim_C10_invalid_bundle_published_raw (env : Deid.Env) (dbOk : Bool)
    (serialize : Deid.BundleR → String) (getBundle : String → Option Deid.BundleJson)
    (st : Deid.St) (bid patientId raw : String)
    (hbid : Deid.pyTruthy bid = true)
    (hraw : Deid.pyTruthy raw = true)
    (hget : getBundle bid = some (.invalid raw)) :
    Deid.anonymize_bundle_str env dbOk serialize st (.invalid raw) = (raw, st) ∧
    (Deid.process_message env dbOk serialize getBundle st (some bid) patientId).1 =
      some ⟨bid, (Deid.get_or_create_pseudonym env dbOk st patientId "patient_id").1,
        raw, "deid-service", "fhir_data_anonymized"⟩ := by
  refine ⟨rfl, ?_⟩
  simp [Deid.process_message, hbid, hget, Deid.bundleJsonTruthy, hraw,
    Deid.anonymize_bundle_str]

/-- Witness for C10: a concrete message whose stored bundle text is not
valid Bundle JSON; it is republished verbatim. -/
theorem claim_C10_invalid_bundle_published_raw_witness :
    Deid.anonymize_bundle_str Deid.env0 true (fun _ => "") Deid.St.empty
        (.invalid "not-a-bundle") = ("not-a-bundle", Deid.St.empty) ∧
    (Deid.process_message Deid.env0 true (fun _ => "")
        (fun _ => some (.invalid "not-a-bundle")) Deid.St.empty (some "b1") "p1").1 =
      some ⟨"b1", (Deid.get_or_create_pseudonym Deid.env0 true Deid.St.empty
        "p1" "patient_id").1, "not-a-bundle", "deid-service", "fhir_data_anonymized"⟩ :=
  claim_C10_invalid_bundle_published_raw Deid.env0 true (fun _ => "")
    (fun _ => some (.invalid "not-a-bundle")) Deid.St.empty "b1" "p1" "not-a-bundle"
    (by decide) (by decide) rfl
